import Mathlib

/-!
Verification development for the gm-convert batch conversion engine
(source: R1.py).  The two components with engineering content are embedded:

* the Command Builder (`ImprovedGMConvertGUI.build_commands`, lines 304-351),
  a pure function from the user's chosen input files, output directory and
  conversion options to a list of external-tool argument lists; and
* the Batch Executor (`EnhancedConvertWorker.run`, lines 26-59), a loop that
  runs the argument lists one at a time, emits Qt signals as events, honours
  a cooperative stop flag, and always emits a single `finished` signal from
  its `finally` block.

Filesystem side effects (`Path.mkdir`) do not influence the values these
functions compute and are modelled only as a possible exception source in
the executor (`mkdirError`).  Python `pathlib.PurePosixPath` values are
modelled as an absolute-flag plus the list of name components.
-/

namespace GMConvert

/-- Model of a `pathlib.Path`: `absolute` is whether the path has the root
anchor `/`; `parts` are the name components after the anchor. -/
structure PyPath where
  absolute : Bool
  parts : List String
deriving DecidableEq, Repr

instance : Inhabited PyPath := ⟨⟨false, []⟩⟩

/-- `str(path)`. -/
def PyPath.toStr (p : PyPath) : String :=
  if p.absolute then "/" ++ String.intercalate "/" p.parts
  else String.intercalate "/" p.parts

/-- `path.name`: the final component (empty for a bare root). -/
def PyPath.nameStr (p : PyPath) : String :=
  p.parts.getLastD ""

/-- `path.parent`: drop the final component. -/
def PyPath.parent (p : PyPath) : PyPath :=
  { p with parts := p.parts.dropLast }

/-- `path.relative_to(path.anchor)` as used at line 315: for an absolute
path this strips the root anchor; a relative path (anchor `""`) is
unchanged. -/
def PyPath.relToAnchor (p : PyPath) : PyPath :=
  { absolute := false, parts := p.parts }

/-- `p / q` for paths (pathlib join: an absolute right operand replaces the
left one). -/
def PyPath.join (p q : PyPath) : PyPath :=
  if q.absolute then q else { absolute := p.absolute, parts := p.parts ++ q.parts }

/-- `p / name` where `name` is a single file-name component. -/
def PyPath.joinName (p : PyPath) (n : String) : PyPath :=
  { p with parts := p.parts ++ [n] }

/-- Index of the last occurrence of `c` in `cs` (Python `str.rfind`),
counting from offset `i`. -/
def rfindAux (c : Char) : List Char → Nat → Option Nat
  | [], _ => none
  | x :: xs, i =>
    match rfindAux c xs (i + 1) with
    | some j => some j
    | none => if x = c then some i else none

/-- Index of the last occurrence of `c` in `s`, if any. -/
def rfind (s : String) (c : Char) : Option Nat :=
  rfindAux c s.data 0

/-- `PurePath.stem` of a file name: the name up to its last dot, except
that a leading dot or a trailing dot does not count as a suffix
separator. -/
def stemOf (n : String) : String :=
  match rfind n '.' with
  | some i => if 0 < i ∧ i + 1 < n.data.length then String.mk (n.data.take i) else n
  | none => n

/-- `str.rstrip('°')` as used on the rotation combo text (line 332). -/
def rstripDeg (s : String) : String :=
  String.mk ((s.data.reverse.dropWhile (· = '°')).reverse)

/-- The conversion options gathered from the GUI widgets, named after the
widgets `build_commands` reads.  `format_combo` and `rotate_combo` hold the
combo boxes' current text; the spin values are the chosen integers. -/
structure ConversionOptions where
  format_combo : String
  quality_spin : Nat
  rotate_combo : String
  flip_check : Bool
  flop_check : Bool
  resize_check : Bool
  width_spin : Nat
  height_spin : Nat
  aspect_check : Bool
  chk_color_profile : Bool
  chk_preserve_structure : Bool
  chk_overwrite : Bool
deriving DecidableEq, Repr

/-- Python `str.lower()`, character by character. -/
def pyLower (s : String) : String :=
  String.mk (s.data.map Char.toLower)

/-- Lines 306-308: lowercase the combo text; "Same as input" means no
explicit output format. -/
def outputFormat (o : ConversionOptions) : Option String :=
  let f := pyLower o.format_combo
  if f = "same as input" then none else some f

/-- Lines 312-315: the destination directory for one input file — the
chosen output directory, joined with the input's parent made relative to
its anchor when preserve-directory-structure is checked. -/
def outDirFor (output_dir : PyPath) (o : ConversionOptions) (input_path : PyPath) : PyPath :=
  if o.chk_preserve_structure then
    output_dir.join (input_path.parent.relToAnchor)
  else output_dir

/-- Lines 319-322: the destination file name — the stem with the new
extension when a format is chosen, otherwise the original name. -/
def destName (o : ConversionOptions) (input_path : PyPath) : String :=
  match outputFormat o with
  | some f => stemOf input_path.nameStr ++ "." ++ f
  | none => input_path.nameStr

/-- The destination file path (`output_file` in the source). -/
def destPath (output_dir : PyPath) (o : ConversionOptions) (input_path : PyPath) : PyPath :=
  (outDirFor output_dir o input_path).joinName (destName o input_path)

/-- Lines 327-330: resize geometry plus the fixed filter/unsharp pass when
aspect-ratio preservation is also checked. -/
def resizeArgs (o : ConversionOptions) : List String :=
  if o.resize_check then
    ["-resize", toString o.width_spin ++ "x" ++ toString o.height_spin]
      ++ (if o.aspect_check then ["-filter", "Lanczos", "-unsharp", "0.25x0.25+8+0.065"] else [])
  else []

/-- Line 332: the rotation combo text with the degree sign stripped. -/
def rotationStr (o : ConversionOptions) : String :=
  rstripDeg o.rotate_combo

/-- Lines 333-334: rotation flag, omitted for "0". -/
def rotateArgs (o : ConversionOptions) : List String :=
  if rotationStr o ≠ "0" then ["-rotate", rotationStr o] else []

/-- Lines 336-337. -/
def flipArgs (o : ConversionOptions) : List String :=
  if o.flip_check then ["-flip"] else []

/-- Lines 338-339. -/
def flopArgs (o : ConversionOptions) : List String :=
  if o.flop_check then ["-flop"] else []

/-- Lines 342-343: the quality flag, emitted only when the (lowercased)
output format is one of jpg, webp, tiff; `None` (format unchanged) is never
in that tuple. -/
def qualityArgs (o : ConversionOptions) : List String :=
  match outputFormat o with
  | some f =>
    if f = "jpg" ∨ f = "webp" ∨ f = "tiff" then ["-quality", toString o.quality_spin]
    else []
  | none => []

/-- Lines 345-346. -/
def profileArgs (o : ConversionOptions) : List String :=
  if o.chk_color_profile then ["-profile", "RGB.icm"] else []

/-- The argument list built for one input file (lines 311-349 of
`build_commands`): `["gm", "convert", source]`, then the option flags in
the source's fixed order, then the destination path last. -/
def build_cmd (output_dir : PyPath) (o : ConversionOptions) (input_path : PyPath) : List String :=
  ["gm", "convert", input_path.toStr]
    ++ resizeArgs o ++ rotateArgs o ++ flipArgs o ++ flopArgs o
    ++ qualityArgs o ++ profileArgs o
    ++ [(destPath output_dir o input_path).toStr]

/-- `ImprovedGMConvertGUI.build_commands` (lines 304-351): one argument
list per input file, in input order.  The `output_path.mkdir` call at line
317 is a filesystem side effect that does not affect the returned value. -/
def build_commands (input_files : List PyPath) (output_dir : PyPath)
    (o : ConversionOptions) : List (List String) :=
  input_files.map (build_cmd output_dir o)

/-! ## Batch Executor (`EnhancedConvertWorker`, lines 14-62) -/

/-- Outcome of one `subprocess.run(cmd, check=True, ...)` call: normal
return with captured combined output, a `CalledProcessError` (non-zero exit
status) carrying the captured output, or any other exception (e.g. the
tool missing), which escapes to the outer handler. -/
inductive ProcResult where
  | ok (stdout : String)
  | err (output : String)
  | exc (msg : String)
deriving DecidableEq, Repr

/-- The Qt signals the worker emits, in emission order. -/
inductive Event where
  | progress_incremented
  | output_received (s : String)
  | finished (success : Bool) (msg : String)
  | current_file (path : String)
deriving DecidableEq, Repr

/-- How the `for` loop ends: `done success error_msg` covers normal
completion and both `break`s (failure and the stop flag); `raised msg` is
an exception escaping the loop into the `except` clause. -/
inductive LoopOutcome where
  | done (success : Bool) (error_msg : String)
  | raised (msg : String)
deriving DecidableEq, Repr

/-- The environment of one run: whether `Path(output_dir).mkdir` at line 30
raises (and with what message), the result of the subprocess call for each
index, and the iteration boundary from which the line-33 read of
`_is_running` sees `False` (`none`: `stop()` is never called in time).  The
flag is set once and never cleared during a run, so visibility is monotone
in the index. -/
structure RunEnv where
  mkdirError : Option String
  results : Nat → ProcResult
  stopIdx : Option Nat

/-- Whether the check `if not self._is_running` at line 33 fires for
iteration `idx`. -/
def stopSeen (stopIdx : Option Nat) (idx : Nat) : Bool :=
  match stopIdx with
  | none => false
  | some s => decide (s ≤ idx)

/-- `cmd_parts[-1]`: the last element of the argument list (the lists the
builder produces are never empty, so the default is never used). -/
def lastStr (l : List String) : String :=
  l.getLastD ""

/-- The line-36 log line `[idx+1/total] Executing: <joined command>`. -/
def execLine (idx total : Nat) (cmd : List String) : String :=
  "[" ++ toString (idx + 1) ++ "/" ++ toString total ++ "] Executing: "
    ++ String.intercalate " " cmd ++ "\n"

/-- The `for idx, cmd_parts in enumerate(self.commands)` loop of `run`
(lines 32-53), returning the events it emits and how it ends.  Before each
item it checks the stop flag; then emits `current_file` and the executing
log line; on subprocess success it emits the output and a progress tick and
continues; on `CalledProcessError` it emits the error output, records
failure naming `cmd_parts[-1]`, and breaks; any other exception escapes. -/
def runLoop (results : Nat → ProcResult) (stopIdx : Option Nat) (total : Nat) :
    List (List String) → Nat → List Event × LoopOutcome
  | [], _ => ([], .done true "")
  | cmd :: rest, idx =>
    if stopSeen stopIdx idx then ([], .done true "")
    else
      let pre := [Event.current_file (lastStr cmd),
                  Event.output_received (execLine idx total cmd)]
      match results idx with
      | .ok out =>
        let r := runLoop results stopIdx total rest (idx + 1)
        (pre ++ [Event.output_received out, Event.progress_incremented] ++ r.1, r.2)
      | .err out =>
        (pre ++ [Event.output_received ("Error: " ++ out)],
         .done false ("Failed to process " ++ lastStr cmd))
      | .exc m => (pre, .raised m)

/-- `EnhancedConvertWorker.run` (lines 26-59): `mkdir`, then the loop; any
exception is caught, logged as `Critical Error` and turned into a failure;
the `finally` clause always emits exactly one `finished(success,
error_msg)` at the end. -/
def run (env : RunEnv) (commands : List (List String)) : List Event :=
  match env.mkdirError with
  | some e => [Event.output_received ("Critical Error: " ++ e), Event.finished false e]
  | none =>
    match runLoop env.results env.stopIdx commands.length commands 0 with
    | (evs, .done s m) => evs ++ [Event.finished s m]
    | (evs, .raised m) =>
      evs ++ [Event.output_received ("Critical Error: " ++ m), Event.finished false m]

/-- Event classifiers for counting. -/
def isProgress : Event → Bool
  | .progress_incremented => true
  | _ => false

def isFinishedEv : Event → Bool
  | .finished _ _ => true
  | _ => false

def isCurrentFile : Event → Bool
  | .current_file _ => true
  | _ => false

/-- Number of progress ticks in a trace. -/
def countProgress (evs : List Event) : Nat :=
  evs.countP isProgress

/-- Number of `finished` events in a trace. -/
def countFinished (evs : List Event) : Nat :=
  evs.countP isFinishedEv

/-- Number of `current_file` events in a trace — one per invocation the
executor started. -/
def countCurrent (evs : List Event) : Nat :=
  evs.countP isCurrentFile

/-! ## Helper lemmas about the executor loop -/

/-- The loop itself never emits a `finished` event; only the `finally`
clause in `run` does. -/
theorem runLoop_no_finished (results : Nat → ProcResult) (stopIdx : Option Nat) (total : Nat) :
    ∀ (cmds : List (List String)) (idx : Nat),
      countFinished (runLoop results stopIdx total cmds idx).1 = 0 := by
  intro cmds
  induction cmds with
  | nil => intro idx; simp [runLoop, countFinished]
  | cons cmd rest ih =>
    intro idx
    by_cases h : stopSeen stopIdx idx
    · simp [runLoop, h, countFinished]
    · cases hres : results idx with
      | ok out =>
        have := ih (idx + 1)
        simp [runLoop, h, hres, countFinished, List.countP_append, isFinishedEv] at this ⊢
        exact this
      | err out => simp [runLoop, h, hres, countFinished, List.countP_append, isFinishedEv]
      | exc m => simp [runLoop, h, hres, countFinished, List.countP_append, isFinishedEv]

/-- If the first `k` subprocess calls (counting from `idx`) succeed and the
`k`-th fails with a non-zero exit status, the loop ends in the failure
outcome naming `cmd_parts[-1]` of item `k`, having emitted exactly `k`
progress ticks and `k + 1` current-file events, the last of them for item
`k`. -/
theorem runLoop_fail (results : Nat → ProcResult) (total : Nat) :
    ∀ (cmds : List (List String)) (idx k : Nat) (out : String),
      k < cmds.length →
      (∀ i, i < k → ∃ s, results (idx + i) = ProcResult.ok s) →
      results (idx + k) = ProcResult.err out →
      (runLoop results none total cmds idx).2
          = LoopOutcome.done false ("Failed to process " ++ lastStr (cmds.getD k []))
      ∧ countProgress (runLoop results none total cmds idx).1 = k
      ∧ countCurrent (runLoop results none total cmds idx).1 = k + 1
      ∧ Event.current_file (lastStr (cmds.getD k []))
          ∈ (runLoop results none total cmds idx).1 := by
  intro cmds
  induction cmds with
  | nil => intro idx k out hk _ _; simp at hk
  | cons cmd rest ih =>
    intro idx k out hk hok herr
    cases k with
    | zero =>
      have h0 : results idx = ProcResult.err out := by simpa using herr
      refine ⟨?_, ?_, ?_, ?_⟩ <;>
        simp [runLoop, stopSeen, h0, countProgress, countCurrent,
          List.countP_append, isProgress, isCurrentFile]
    | succ n =>
      obtain ⟨s0, hs0⟩ := hok 0 (Nat.succ_pos _)
      have hs0' : results idx = ProcResult.ok s0 := by simpa using hs0
      have hok' : ∀ i, i < n → ∃ s, results (idx + 1 + i) = ProcResult.ok s := by
        intro i hi
        have h := hok (i + 1) (by omega)
        have e : idx + (i + 1) = idx + 1 + i := by omega
        rwa [e] at h
      have herr' : results (idx + 1 + n) = ProcResult.err out := by
        have e : idx + 1 + n = idx + (n + 1) := by omega
        rw [e]; exact herr
      obtain ⟨h1, h2, h3, h4⟩ :=
        ih (idx + 1) n out (by simpa using Nat.lt_of_succ_lt_succ hk) hok' herr'
      refine ⟨?_, ?_, ?_, ?_⟩
      · simpa [runLoop, stopSeen, hs0'] using h1
      · simp [runLoop, stopSeen, hs0', countProgress, List.countP_append,
          isProgress] at h2 ⊢
        omega
      · simp [runLoop, stopSeen, hs0', countCurrent, List.countP_append,
          isCurrentFile] at h3 ⊢
        omega
      · have h4' : Event.current_file (lastStr ((cmd :: rest).getD (n + 1) []))
            ∈ (runLoop results none total rest (idx + 1)).1 := by simpa using h4
        simp [runLoop, stopSeen, hs0', List.mem_append] at h4' ⊢
        tauto

/-- If every subprocess call made while the stop flag is still unseen
succeeds, the loop ends with `success = True` and an empty error message —
both on normal completion and when the cooperative stop breaks it. -/
theorem runLoop_done_true (results : Nat → ProcResult) (stopIdx : Option Nat) (total : Nat) :
    ∀ (cmds : List (List String)) (idx : Nat),
      (∀ i, idx ≤ i → stopSeen stopIdx i = false → ∃ s, results i = ProcResult.ok s) →
      (runLoop results stopIdx total cmds idx).2 = LoopOutcome.done true "" := by
  intro cmds
  induction cmds with
  | nil => intro idx _; simp [runLoop]
  | cons cmd rest ih =>
    intro idx hok
    by_cases h : stopSeen stopIdx idx
    · simp [runLoop, h]
    · obtain ⟨s0, hs0⟩ := hok idx (le_refl idx) (by simpa using h)
      have := ih (idx + 1) (fun i hi hstop => hok i (by omega) hstop)
      simpa [runLoop, h, hs0] using this

/-- With the stop flag becoming visible at boundary `s` and all calls
before `s` succeeding, the loop starts exactly `min (s - idx) |cmds|`
invocations and ticks exactly that many times. -/
theorem runLoop_stop_counts (results : Nat → ProcResult) (s total : Nat) :
    ∀ (cmds : List (List String)) (idx : Nat),
      (∀ i, idx ≤ i → i < s → ∃ o, results i = ProcResult.ok o) →
      countCurrent (runLoop results (some s) total cmds idx).1 = min (s - idx) cmds.length
      ∧ countProgress (runLoop results (some s) total cmds idx).1 = min (s - idx) cmds.length := by
  intro cmds
  induction cmds with
  | nil => intro idx _; simp [runLoop, countCurrent, countProgress]
  | cons cmd rest ih =>
    intro idx hok
    by_cases h : s ≤ idx
    · have hstop : stopSeen (some s) idx = true := by simp [stopSeen, h]
      have e : s - idx = 0 := by omega
      simp [runLoop, hstop, countCurrent, countProgress, e]
    · have hstop : stopSeen (some s) idx = false := by simp [stopSeen]; omega
      obtain ⟨o0, ho0⟩ := hok idx (le_refl idx) (by omega)
      obtain ⟨h1, h2⟩ := ih (idx + 1) (fun i hi his => hok i (by omega) his)
      constructor
      · simp [runLoop, hstop, ho0, countCurrent, List.countP_append,
          isCurrentFile] at h1 ⊢
        omega
      · simp [runLoop, hstop, ho0, countProgress, List.countP_append,
          isProgress] at h2 ⊢
        omega

/-! ## Claim theorems -/

/-- C1: for every JobPlan where invocation `k` fails (non-zero exit
status) and all earlier invocations succeed, the executor executes no
invocation after index `k` (exactly `k + 1` current-file events are
emitted, one per started item `0..k`), the single terminal `finished`
event has `success = false` with a message naming item `k` (by its
`cmd_parts[-1]`), and no progress tick is emitted for item `k` (exactly
`k` ticks in total). -/
theorem claim_C1_fail_fast (cmds : List (List String)) (results : Nat → ProcResult)
    (k : Nat) (out : String)
    (hk : k < cmds.length)
    (hok : ∀ i, i < k → ∃ s, results i = ProcResult.ok s)
    (herr : results k = ProcResult.err out) :
    countFinished (run ⟨none, results, none⟩ cmds) = 1
    ∧ (run ⟨none, results, none⟩ cmds).getLast?
        = some (Event.finished false ("Failed to process " ++ lastStr (cmds.getD k [])))
    ∧ countProgress (run ⟨none, results, none⟩ cmds) = k
    ∧ countCurrent (run ⟨none, results, none⟩ cmds) = k + 1 := by
  have hok0 : ∀ i, i < k → ∃ s, results (0 + i) = ProcResult.ok s := by
    intro i hi; simpa using hok i hi
  have herr0 : results (0 + k) = ProcResult.err out := by simpa using herr
  obtain ⟨h1, h2, h3, _⟩ := runLoop_fail results cmds.length cmds 0 k out hk hok0 herr0
  have hnf := runLoop_no_finished results none cmds.length cmds 0
  rcases hr : runLoop results none cmds.length cmds 0 with ⟨evs, oc⟩
  rw [hr] at h1 h2 h3 hnf
  simp only at h1 h2 h3 hnf
  subst h1
  refine ⟨?_, ?_, ?_, ?_⟩
  · simp [run, hr, countFinished, List.countP_append, isFinishedEv] at hnf ⊢
    simpa [countFinished] using hnf
  · simp [run, hr, List.getLast?_concat]
  · simp [run, hr, countProgress, List.countP_append, isProgress] at h2 ⊢
    simpa [countProgress] using h2
  · simp [run, hr, countCurrent, List.countP_append, isCurrentFile] at h3 ⊢
    simpa [countCurrent] using h3

/-- Witness for C1: a three-item plan whose second item fails — one
finished event (failure naming `/out/b.jpg`), one progress tick, two
current-file events. -/
theorem claim_C1_fail_fast_witness :
    (1 : Nat) < 3
    ∧ (countFinished (run ⟨none, fun i => if i = 1 then ProcResult.err "boom" else ProcResult.ok "", none⟩
          [["gm", "convert", "/in/a.png", "/out/a.jpg"],
           ["gm", "convert", "/in/b.png", "/out/b.jpg"],
           ["gm", "convert", "/in/c.png", "/out/c.jpg"]]) = 1
        ∧ (run ⟨none, fun i => if i = 1 then ProcResult.err "boom" else ProcResult.ok "", none⟩
          [["gm", "convert", "/in/a.png", "/out/a.jpg"],
           ["gm", "convert", "/in/b.png", "/out/b.jpg"],
           ["gm", "convert", "/in/c.png", "/out/c.jpg"]]).getLast?
            = some (Event.finished false ("Failed to process "
                ++ lastStr ([["gm", "convert", "/in/a.png", "/out/a.jpg"],
                             ["gm", "convert", "/in/b.png", "/out/b.jpg"],
                             ["gm", "convert", "/in/c.png", "/out/c.jpg"]].getD 1 [])))
        ∧ countProgress (run ⟨none, fun i => if i = 1 then ProcResult.err "boom" else ProcResult.ok "", none⟩
          [["gm", "convert", "/in/a.png", "/out/a.jpg"],
           ["gm", "convert", "/in/b.png", "/out/b.jpg"],
           ["gm", "convert", "/in/c.png", "/out/c.jpg"]]) = 1
        ∧ countCurrent (run ⟨none, fun i => if i = 1 then ProcResult.err "boom" else ProcResult.ok "", none⟩
          [["gm", "convert", "/in/a.png", "/out/a.jpg"],
           ["gm", "convert", "/in/b.png", "/out/b.jpg"],
           ["gm", "convert", "/in/c.png", "/out/c.jpg"]]) = 1 + 1) :=
  ⟨by decide,
   claim_C1_fail_fast _ _ 1 "boom" (by decide)
     (by intro i hi; interval_cases i; exact ⟨"", rfl⟩) rfl⟩

/-- C7: if cancellation is requested before the first invocation starts
(the stop flag is already visible at iteration boundary 0), the executor
executes zero invocations and emits zero progress ticks — the whole trace
is just the terminal `finished` from the `finally` clause. -/
theorem claim_C7_cancel_before_start (cmds : List (List String)) (results : Nat → ProcResult) :
    run ⟨none, results, some 0⟩ cmds = [Event.finished true ""]
    ∧ countCurrent (run ⟨none, results, some 0⟩ cmds) = 0
    ∧ countProgress (run ⟨none, results, some 0⟩ cmds) = 0 := by
  have h : run ⟨none, results, some 0⟩ cmds = [Event.finished true ""] := by
    cases cmds with
    | nil => simp [run, runLoop]
    | cons cmd rest => simp [run, runLoop, stopSeen]
  exact ⟨h, by simp [h, countCurrent, isCurrentFile],
    by simp [h, countProgress, isProgress]⟩

/-- C9: on every run path — completion, invocation failure, unexpected
internal exception, and cooperative cancellation — exactly one
`finished(success, message)` event is emitted, and it is the last event of
the trace; moreover a run in which every invocation made before the stop
flag became visible succeeded (which covers both cancellation before any
failure and full completion) ends with `finished(true, "")`, so a
cancelled run is indistinguishable at that event from a completed run. -/
theorem claim_C9_single_finished :
    (∀ (env : RunEnv) (cmds : List (List String)),
        countFinished (run env cmds) = 1
        ∧ ∃ s m, (run env cmds).getLast? = some (Event.finished s m))
    ∧ (∀ (results : Nat → ProcResult) (stopIdx : Option Nat) (cmds : List (List String)),
        (∀ i, stopSeen stopIdx i = false → ∃ s, results i = ProcResult.ok s) →
        (run ⟨none, results, stopIdx⟩ cmds).getLast? = some (Event.finished true "")) := by
  constructor
  · rintro ⟨mkErr, results, stopIdx⟩ cmds
    cases mkErr with
    | some e => simp [run, countFinished, isFinishedEv]
    | none =>
      have hnf := runLoop_no_finished results stopIdx cmds.length cmds 0
      rcases hr : runLoop results stopIdx cmds.length cmds 0 with ⟨evs, oc⟩
      rw [hr] at hnf
      simp only at hnf
      cases oc with
      | done s m =>
        refine ⟨?_, s, m, ?_⟩
        · simp [run, hr, countFinished, List.countP_append, isFinishedEv] at hnf ⊢
          simpa [countFinished] using hnf
        · simp [run, hr, List.getLast?_concat]
      | raised m =>
        refine ⟨?_, false, m, ?_⟩
        · simp [run, hr, countFinished, List.countP_append, isFinishedEv] at hnf ⊢
          simpa [countFinished] using hnf
        · have hsplit : run ⟨none, results, stopIdx⟩ cmds
              = (evs ++ [Event.output_received ("Critical Error: " ++ m)])
                  ++ [Event.finished false m] := by
            simp [run, hr]
          rw [hsplit, List.getLast?_concat]
  · intro results stopIdx cmds hok
    have hdone := runLoop_done_true results stopIdx cmds.length cmds 0
      (fun i _ hstop => hok i hstop)
    rcases hr : runLoop results stopIdx cmds.length cmds 0 with ⟨evs, oc⟩
    rw [hr] at hdone
    simp only at hdone
    subst hdone
    simp [run, hr, List.getLast?_concat]

/-- Witness for C9: applying the cancellation half at a concrete run —
stop visible from boundary 1, both subprocess results successful — yields
a final `finished(true, "")`. -/
theorem claim_C9_single_finished_witness :
    (run ⟨none, fun _ => ProcResult.ok "", some 1⟩
        [["gm", "convert", "/in/a.png", "/out/a.jpg"],
         ["gm", "convert", "/in/b.png", "/out/b.jpg"]]).getLast?
      = some (Event.finished true "") :=
  claim_C9_single_finished.2 _ _ _ (fun _ _ => ⟨"", rfl⟩)

/-- C2 counterexample: the claim says a cancelled run emits no `finished`
event, but the `finally` clause at line 59 always emits one — here the
stop flag is set before the first iteration boundary and the trace
nevertheless contains (indeed, is exactly) `finished(true, "")`. -/
theorem claim_C2_counterexample :
    Event.finished true ""
      ∈ run ⟨none, fun _ => ProcResult.ok "", some 0⟩
          [["gm", "convert", "/in/a.png", "/out/a.jpg"]] := by
  decide

/-- C2 amended: when the cooperative stop flag becomes visible at
iteration boundary `s` (and no invocation before that failed), the
executor stops at that boundary — it starts only the `min s |plan|`
invocations before the flag was seen and ticks only for those — but its
`finally` clause still emits exactly one terminal event, `finished` with
`success = true` and an empty message, rather than emitting nothing. -/
theorem claim_C2_cancel_amended (cmds : List (List String)) (results : Nat → ProcResult)
    (s : Nat)
    (hok : ∀ i, i < s → ∃ o, results i = ProcResult.ok o) :
    countCurrent (run ⟨none, results, some s⟩ cmds) = min s cmds.length
    ∧ countProgress (run ⟨none, results, some s⟩ cmds) = min s cmds.length
    ∧ (run ⟨none, results, some s⟩ cmds).getLast? = some (Event.finished true "")
    ∧ countFinished (run ⟨none, results, some s⟩ cmds) = 1 := by
  have hdone := runLoop_done_true results (some s) cmds.length cmds 0
    (fun i _ hstop => hok i (by simpa [stopSeen] using hstop))
  obtain ⟨hc, hp⟩ := runLoop_stop_counts results s cmds.length cmds 0
    (fun i _ his => hok i his)
  have hnf := runLoop_no_finished results (some s) cmds.length cmds 0
  rcases hr : runLoop results (some s) cmds.length cmds 0 with ⟨evs, oc⟩
  rw [hr] at hdone hc hp hnf
  simp only at hdone hc hp hnf
  subst hdone
  refine ⟨?_, ?_, ?_, ?_⟩
  · simp [run, hr, countCurrent, List.countP_append, isCurrentFile] at hc ⊢
    simpa [countCurrent] using hc
  · simp [run, hr, countProgress, List.countP_append, isProgress] at hp ⊢
    simpa [countProgress] using hp
  · simp [run, hr, List.getLast?_concat]
  · simp [run, hr, countFinished, List.countP_append, isFinishedEv] at hnf ⊢
    simpa [countFinished] using hnf

/-- Witness for C2 (amended): stop visible from boundary 1 on a two-item
plan — one invocation started, one tick, and the terminal
`finished(true, "")`. -/
theorem claim_C2_cancel_amended_witness :
    countCurrent (run ⟨none, fun _ => ProcResult.ok "", some 1⟩
        [["gm", "convert", "/in/a.png", "/out/a.jpg"],
         ["gm", "convert", "/in/b.png", "/out/b.jpg"]]) = min 1 2
    ∧ countProgress (run ⟨none, fun _ => ProcResult.ok "", some 1⟩
        [["gm", "convert", "/in/a.png", "/out/a.jpg"],
         ["gm", "convert", "/in/b.png", "/out/b.jpg"]]) = min 1 2
    ∧ (run ⟨none, fun _ => ProcResult.ok "", some 1⟩
        [["gm", "convert", "/in/a.png", "/out/a.jpg"],
         ["gm", "convert", "/in/b.png", "/out/b.jpg"]]).getLast?
        = some (Event.finished true "")
    ∧ countFinished (run ⟨none, fun _ => ProcResult.ok "", some 1⟩
        [["gm", "convert", "/in/a.png", "/out/a.jpg"],
         ["gm", "convert", "/in/b.png", "/out/b.jpg"]]) = 1 :=
  claim_C2_cancel_amended _ _ 1 (fun _ _ => ⟨"", rfl⟩)

/-! ## String and list facts used by the builder claims -/

theorem data_append (a b : String) : (a ++ b).data = a.data ++ b.data := by
  cases a; cases b; rfl

theorem lastStr_snoc (l : List String) (a : String) : lastStr (l ++ [a]) = a := by
  simp [lastStr, List.getLastD_eq_getLast?, List.getLast?_concat]

/-- The string of an absolute path starts with the `/` anchor. -/
theorem abs_head (p : PyPath) (h : p.absolute = true) :
    ∃ cs, p.toStr.data = '/' :: cs := by
  refine ⟨(String.intercalate "/" p.parts).data, ?_⟩
  simp only [PyPath.toStr, h, if_pos]
  rw [data_append]
  rfl

/-- The string of an absolute path is never the flag token `-quality`. -/
theorem abs_toStr_ne_quality (p : PyPath) (h : p.absolute = true) :
    p.toStr ≠ "-quality" := by
  obtain ⟨cs, hcs⟩ := abs_head p h
  intro he
  rw [he] at hcs
  have hh : "-quality".data.head? = some '-' := rfl
  rw [hcs] at hh
  simp at hh

/-- A resize geometry string `W ++ "x" ++ H` is never `-quality` (it
contains an `x`, which `-quality` does not). -/
theorem geom_ne_quality (a b : String) : a ++ "x" ++ b ≠ "-quality" := by
  intro h
  have hx : 'x' ∈ (a ++ "x" ++ b).data := by
    rw [data_append, data_append]
    exact List.mem_append_left _ (List.mem_append_right _ (by decide))
  rw [h] at hx
  exact absurd hx (by decide)

/-- With the rotation combo text one of its four fixed items, the rotation
segment never contains `-quality`. -/
theorem quality_not_mem_rotateArgs (o : ConversionOptions)
    (hrot : o.rotate_combo ∈ (["0°", "90°", "180°", "270°"] : List String)) :
    "-quality" ∉ rotateArgs o := by
  simp only [List.mem_cons, List.not_mem_nil, or_false] at hrot
  rcases hrot with h | h | h | h
  all_goals simp only [rotateArgs, rotationStr, h]
  all_goals decide

/-- The destination path inherits the output directory's absoluteness. -/
theorem destPath_absolute (output_dir : PyPath) (o : ConversionOptions) (input_path : PyPath) :
    (destPath output_dir o input_path).absolute = output_dir.absolute := by
  simp only [destPath, PyPath.joinName, outDirFor]
  split
  · simp [PyPath.join, PyPath.relToAnchor]
  · rfl

/-! ## Sample concrete values for witnesses -/

/-- Sample input file `/in/a.png`. -/
def sampleIn : PyPath := ⟨true, ["in", "a.png"]⟩

/-- Sample input file `/in/sub/b.jpeg`. -/
def sampleSub : PyPath := ⟨true, ["in", "sub", "b.jpeg"]⟩

/-- Sample output directory `/out`. -/
def sampleOut : PyPath := ⟨true, ["out"]⟩

/-- Sample options: jpg output at quality 90, no transforms, no structure
preservation. -/
def sampleOptsJpg : ConversionOptions :=
  ⟨"jpg", 90, "0°", false, false, false, 1, 1, true, false, false, false⟩

/-- Sample options: format unchanged, rotate 90, horizontal flip, preserve
directory structure. -/
def sampleOptsUnch : ConversionOptions :=
  ⟨"Same as input", 80, "90°", true, false, false, 1, 1, true, false, true, false⟩

/-- C10: the path identifying an item — in the `current_file` event
emitted before each invocation and in the failure message of
`finished(false, ...)` — is `cmd_parts[-1]`, the last element of the
argument list, which for every invocation the Command Builder produces is
the destination (output) path, not the source path (the source sits at
index 2). -/
theorem claim_C10_identify_by_dest :
    (∀ (output_dir : PyPath) (o : ConversionOptions) (input_path : PyPath),
        lastStr (build_cmd output_dir o input_path)
          = (destPath output_dir o input_path).toStr)
    ∧ (∀ (cmds : List (List String)) (results : Nat → ProcResult) (k : Nat) (out : String),
        k < cmds.length →
        (∀ i, i < k → ∃ s, results i = ProcResult.ok s) →
        results k = ProcResult.err out →
        Event.current_file (lastStr (cmds.getD k [])) ∈ run ⟨none, results, none⟩ cmds
        ∧ (run ⟨none, results, none⟩ cmds).getLast?
            = some (Event.finished false ("Failed to process " ++ lastStr (cmds.getD k [])))) := by
  constructor
  · intro output_dir o input_path
    simp only [build_cmd]
    exact lastStr_snoc _ _
  · intro cmds results k out hk hok herr
    have hok0 : ∀ i, i < k → ∃ s, results (0 + i) = ProcResult.ok s := by
      intro i hi; simpa using hok i hi
    have herr0 : results (0 + k) = ProcResult.err out := by simpa using herr
    obtain ⟨h1, _, _, h4⟩ := runLoop_fail results cmds.length cmds 0 k out hk hok0 herr0
    rcases hr : runLoop results none cmds.length cmds 0 with ⟨evs, oc⟩
    rw [hr] at h1 h4
    simp only at h1 h4
    subst h1
    constructor
    · simp only [run, hr]
      exact List.mem_append_left _ h4
    · simp [run, hr, List.getLast?_concat]

/-- Witness for C10: in the jpg sample the identifying path is the
destination `/out/a.jpg`, which differs from the source `/in/a.png`. -/
theorem claim_C10_identify_by_dest_witness :
    lastStr (build_cmd sampleOut sampleOptsJpg sampleIn)
        = (destPath sampleOut sampleOptsJpg sampleIn).toStr
    ∧ (destPath sampleOut sampleOptsJpg sampleIn).toStr = "/out/a.jpg"
    ∧ sampleIn.toStr = "/in/a.png"
    ∧ "/out/a.jpg" ≠ "/in/a.png" :=
  ⟨claim_C10_identify_by_dest.1 _ _ _, by decide, by decide, by decide⟩

/-- C3 counterexample: with jpg output (and the default quality 90) the
builder produces `["gm", "convert", "/in/a.png", "-quality", "90",
"/out/a.jpg"]` — the flags sit between source and destination, so the last
two elements are not source-then-destination as the claim states. -/
theorem claim_C3_counterexample :
    build_cmd sampleOut sampleOptsJpg sampleIn
        = ["gm", "convert", "/in/a.png", "-quality", "90", "/out/a.jpg"]
    ∧ (build_cmd sampleOut sampleOptsJpg sampleIn).drop
        ((build_cmd sampleOut sampleOptsJpg sampleIn).length - 2)
        ≠ [sampleIn.toStr, (destPath sampleOut sampleOptsJpg sampleIn).toStr] := by
  constructor
  · decide
  · decide

/-- C3 amended: for every input file and options value the invocation is
an ordered argument list that begins with the external tool name, the verb
and then the source path, and ends with the destination path as its last
element; the option flags appear between the source and the destination,
so source and destination are adjacent only when no flag is emitted. -/
theorem claim_C3_shape_amended (output_dir : PyPath) (o : ConversionOptions)
    (input_path : PyPath) :
    ∃ flags, build_cmd output_dir o input_path
      = ["gm", "convert", input_path.toStr] ++ flags
          ++ [(destPath output_dir o input_path).toStr] := by
  refine ⟨resizeArgs o ++ rotateArgs o ++ flipArgs o ++ flopArgs o
    ++ qualityArgs o ++ profileArgs o, ?_⟩
  simp [build_cmd]

/-- C5: for every non-empty input list the JobPlan has exactly one
invocation per input file, and the `i`-th invocation is built from the
`i`-th input — the plan preserves input order. -/
theorem claim_C5_plan_order (input_files : List PyPath) (output_dir : PyPath)
    (o : ConversionOptions) (_hne : input_files ≠ []) :
    (build_commands input_files output_dir o).length = input_files.length
    ∧ ∀ i : Nat, (build_commands input_files output_dir o)[i]?
        = (input_files[i]?).map (build_cmd output_dir o) := by
  refine ⟨by simp [build_commands], ?_⟩
  intro i
  simp [build_commands, List.getElem?_map]

/-- Witness for C5: a concrete two-file plan has length two and its
entries are the per-file commands in order. -/
theorem claim_C5_plan_order_witness :
    ([sampleIn, sampleSub] : List PyPath) ≠ []
    ∧ (build_commands [sampleIn, sampleSub] sampleOut sampleOptsJpg).length
        = ([sampleIn, sampleSub] : List PyPath).length
    ∧ (build_commands [sampleIn, sampleSub] sampleOut sampleOptsJpg)[1]?
        = (([sampleIn, sampleSub] : List PyPath)[1]?).map (build_cmd sampleOut sampleOptsJpg) :=
  ⟨by decide,
   (claim_C5_plan_order _ _ _ (by decide)).1,
   (claim_C5_plan_order _ _ _ (by decide)).2 1⟩

/-- C6: when preserve-directory-structure is unchecked the destination's
parent is exactly the chosen output directory; when checked it is the
output directory joined with the input's parent made relative to its
filesystem root. -/
theorem claim_C6_dest_parent (output_dir : PyPath) (o : ConversionOptions)
    (input_path : PyPath) :
    (o.chk_preserve_structure = false →
        (destPath output_dir o input_path).parent = output_dir)
    ∧ (o.chk_preserve_structure = true →
        (destPath output_dir o input_path).parent
          = output_dir.join (input_path.parent.relToAnchor)) := by
  have hp : ∀ (p : PyPath) (n : String), (p.joinName n).parent = p := by
    intro p n
    cases p
    simp [PyPath.joinName, PyPath.parent, List.dropLast_concat]
  constructor
  · intro h; simp [destPath, hp, outDirFor, h]
  · intro h; simp [destPath, hp, outDirFor, h]

/-- Witness for C6: without structure preservation `/out/a.jpg` has parent
`/out`; with it, `/in/sub/b.jpeg` lands under `/out/in/sub`. -/
theorem claim_C6_dest_parent_witness :
    sampleOptsJpg.chk_preserve_structure = false
    ∧ (destPath sampleOut sampleOptsJpg sampleIn).parent = sampleOut
    ∧ sampleOptsUnch.chk_preserve_structure = true
    ∧ (destPath sampleOut sampleOptsUnch sampleSub).parent
        = sampleOut.join (sampleSub.parent.relToAnchor) :=
  ⟨rfl, (claim_C6_dest_parent _ _ _).1 rfl, rfl,
   (claim_C6_dest_parent _ _ _).2 rfl⟩

/-- C8: the Command Builder is deterministic — it is a pure function of
the input list, output directory and options, so two runs on identical
arguments produce identical JobPlans. -/
theorem claim_C8_deterministic (ins1 ins2 : List PyPath) (out1 out2 : PyPath)
    (o1 o2 : ConversionOptions)
    (h1 : ins1 = ins2) (h2 : out1 = out2) (h3 : o1 = o2) :
    build_commands ins1 out1 o1 = build_commands ins2 out2 o2 := by
  rw [h1, h2, h3]

/-- Witness for C8: two builds from the same concrete arguments agree. -/
theorem claim_C8_deterministic_witness :
    build_commands [sampleIn] sampleOut sampleOptsJpg
      = build_commands [sampleIn] sampleOut sampleOptsJpg :=
  claim_C8_deterministic _ _ _ _ _ _ rfl rfl rfl

/-- C4: for absolute source and output-directory paths and the rotation
combo showing one of its four fixed items, an invocation contains the
`-quality` flag if and only if the (lowercased) chosen output format is in
the lossy-supporting set `{jpg, webp, tiff}`; for every other format —
including "Same as input" — no quality argument appears, whatever the
requested quality value. -/
theorem claim_C4_quality_iff (output_dir : PyPath) (o : ConversionOptions)
    (input_path : PyPath)
    (hin : input_path.absolute = true) (hout : output_dir.absolute = true)
    (hrot : o.rotate_combo ∈ (["0°", "90°", "180°", "270°"] : List String)) :
    "-quality" ∈ build_cmd output_dir o input_path
      ↔ pyLower o.format_combo ∈ (["jpg", "webp", "tiff"] : List String) := by
  have hdest : (destPath output_dir o input_path).absolute = true := by
    rw [destPath_absolute]; exact hout
  constructor
  · intro hmem
    by_contra hfmt
    have hq : qualityArgs o = [] := by
      have hs : outputFormat o = none
          ∨ outputFormat o = some (pyLower o.format_combo) := by
        by_cases hcase : pyLower o.format_combo = "same as input"
        · exact Or.inl (by simp [outputFormat, hcase])
        · exact Or.inr (by simp [outputFormat, hcase])
      rcases hs with hs | hs
      · simp [qualityArgs, hs]
      · simp only [qualityArgs, hs]
        rw [if_neg]
        simpa using hfmt
    simp only [build_cmd, List.mem_append, hq, List.not_mem_nil, or_false] at hmem
    rcases hmem with ((((((hmem | hmem) | hmem) | hmem) | hmem) | hmem) | hmem)
    · simp only [List.mem_cons, List.not_mem_nil, or_false] at hmem
      rcases hmem with hmem | hmem | hmem
      · exact absurd hmem (by decide)
      · exact absurd hmem (by decide)
      · exact abs_toStr_ne_quality input_path hin hmem.symm
    · simp only [resizeArgs] at hmem
      by_cases hr : o.resize_check = true
      · simp only [hr, if_pos, List.mem_append, List.mem_cons,
          List.not_mem_nil, or_false] at hmem
        rcases hmem with (hmem | hmem) | hmem
        · exact absurd hmem (by decide)
        · exact geom_ne_quality _ _ hmem.symm
        · by_cases ha : o.aspect_check = true
          · simp only [ha, if_pos] at hmem
            exact absurd hmem (by decide)
          · simp only [Bool.not_eq_true] at ha
            simp [ha] at hmem
      · simp only [Bool.not_eq_true] at hr
        simp [hr] at hmem
    · exact quality_not_mem_rotateArgs o hrot hmem
    · simp only [flipArgs] at hmem
      by_cases hf : o.flip_check = true
      · simp only [hf, if_pos] at hmem
        exact absurd hmem (by decide)
      · simp only [Bool.not_eq_true] at hf
        simp [hf] at hmem
    · simp only [flopArgs] at hmem
      by_cases hf : o.flop_check = true
      · simp only [hf, if_pos] at hmem
        exact absurd hmem (by decide)
      · simp only [Bool.not_eq_true] at hf
        simp [hf] at hmem
    · simp only [profileArgs] at hmem
      by_cases hc : o.chk_color_profile = true
      · simp only [hc, if_pos] at hmem
        exact absurd hmem (by decide)
      · simp only [Bool.not_eq_true] at hc
        simp [hc] at hmem
    · simp only [List.mem_cons, List.not_mem_nil, or_false] at hmem
      exact abs_toStr_ne_quality _ hdest hmem.symm
  · intro h
    have hq : qualityArgs o = ["-quality", toString o.quality_spin] := by
      have h3 : pyLower o.format_combo = "jpg" ∨ pyLower o.format_combo = "webp"
          ∨ pyLower o.format_combo = "tiff" := by simpa using h
      rcases h3 with heq | heq | heq
      all_goals simp [qualityArgs, outputFormat, heq]
    simp [build_cmd, hq, List.mem_append]

/-- Witness for C4: the jpg sample contains the quality flag and its
format is in the lossy set; the hypotheses hold by computation. -/
theorem claim_C4_quality_iff_witness :
    sampleIn.absolute = true
    ∧ sampleOut.absolute = true
    ∧ sampleOptsJpg.rotate_combo ∈ (["0°", "90°", "180°", "270°"] : List String)
    ∧ ("-quality" ∈ build_cmd sampleOut sampleOptsJpg sampleIn
        ↔ pyLower sampleOptsJpg.format_combo ∈ (["jpg", "webp", "tiff"] : List String)) :=
  ⟨rfl, rfl, by decide, claim_C4_quality_iff _ _ _ rfl rfl (by decide)⟩

end GMConvert
